import Mathlib

/-!
Verification of the referential bulk-data loader of this repository.

The development shallowly embeds the loader of `src/main.py`
(`insert_processed_data`, the foreign-key resolution loop of `main`,
and the session/transaction structure of `main`) and the reconciler of
`src/debug.py` (its Pass-2 row rewriting).  The external relational
sink (PostgreSQL via psycopg2) is modelled as an explicit state with
one unique constraint and a set of NOT NULL columns per table: an
insert fails with a uniqueness violation exactly when an existing row
agrees with the new row on every unique-constraint column (SQL NULLs
are represented by `none`; the model lets `none` match `none`, which is
also how the loader's own `IS NULL` recovery lookup treats them), and
fails with another integrity error when a NOT NULL column receives
`none`.  Generated primary keys are modelled by a per-table counter,
mirroring a sequence-backed key returned through the RETURNING clause.
-/

namespace CsvLoader

/-- A value bound into an SQL statement by the loader: either a CSV string
or an integer identifier substituted by foreign-key resolution. -/
inductive Val
  | vs (s : String)
  | vn (n : Nat)
deriving DecidableEq

/-- A nullable SQL-bound cell; `none` is Python `None` / SQL NULL. -/
abbrev Cell := Option Val

/-- A row dictionary: field name to cell.  Keys are unique in practice
(CSV headers); assoc-list operations use the first binding, as a dict does. -/
abbrev Row := List (String × Cell)

/-- First-binding association lookup (Python `dict.get`, returning `none`
when the key is absent). -/
def alookup {κ : Type} {α : Type} [DecidableEq κ] (k : κ) : List (κ × α) → Option α
  | [] => none
  | (k2, v) :: rest => if k2 = k then some v else alookup k rest

/-- Dictionary assignment `d[k] = v`: replace the first binding of `k`,
or append a new binding. -/
def aset {κ : Type} {α : Type} [DecidableEq κ] (m : List (κ × α)) (k : κ) (v : α) :
    List (κ × α) :=
  match m with
  | [] => [(k, v)]
  | (k2, v2) :: rest => if k2 = k then (k, v) :: rest else (k2, v2) :: aset rest k v

/-- `row_dict.get(h)`: absent key and a stored `None` are indistinguishable. -/
def rowGet (r : Row) (h : String) : Cell :=
  match alookup h r with
  | some c => c
  | none => none

/-- `processed_row[k] = v`. -/
def rowSet (r : Row) (k : String) (v : Cell) : Row := aset r k v

/-- A raw CSV row as produced by `csv.DictReader`: every value a string. -/
def rawRow (l : List (String × String)) : Row :=
  l.map (fun p => (p.1, some (Val.vs p.2)))

/-- The per-value normalisation of `insert_processed_data`
(`if value == '': value = None`), also applied when building the
natural-key recovery lookup (`if value == '' or value is None: IS NULL`). -/
def norm (c : Cell) : Cell :=
  if c = some (Val.vs "") then none else c

/-- The parameter record actually inserted: destination column names of
`csv_to_db_map` paired with the normalised values taken from the row by
the corresponding CSV headers (source order). -/
def mkRecord (mp : List (String × String)) (row : Row) : Row :=
  mp.map (fun p => (p.2, norm (rowGet row p.1)))

/-- `next((k for k, v in csv_to_db_map.items() if v == db_col), None)`:
the first CSV header mapped to a destination column. -/
def headerFor (mp : List (String × String)) (c : String) : Option String :=
  (mp.find? (fun p => p.2 = c)).map (fun p => p.1)

/-- The WHERE clauses of the recovery lookup, one per natural-key column:
`none` when some natural-key column has no CSV header (the code then
breaks out and skips the row).  A clause cell of `none` is the
`IS NULL` predicate, any other cell an equality predicate. -/
def nkClauses (mp : List (String × String)) (nk : List String) (row : Row) :
    Option (List (String × Cell)) :=
  match nk with
  | [] => some []
  | c :: rest =>
    match headerFor mp c with
    | none => none
    | some h =>
      match nkClauses mp rest row with
      | none => none
      | some cl => some ((c, norm (rowGet row h)) :: cl)

/-- Does row `r` agree with probe record `rcd` on every column of `cols`?
This is both the model's uniqueness test and the recovery lookup's match. -/
def nkMatches (cols : List String) (rcd r : Row) : Bool :=
  cols.all (fun c => decide (rowGet r c = rowGet rcd c))

/-- One target table of the external relational sink: its stored rows
(generated id paired with the inserted record), the next generated key,
and its schema constraints. -/
structure Sink where
  rows : List (Nat × Row)
  nextId : Nat
  uniqueCols : List String
  notNullCols : List String
deriving DecidableEq

/-- Is some stored row equal to the probe on all of `cols`? -/
def hasMatch (cols : List String) (s : Sink) (rcd : Row) : Bool :=
  s.rows.any (fun p => nkMatches cols rcd p.2)

/-- Identifier of the first stored row matching the probe on `cols`
(`cursor.fetchone()` of the recovery SELECT). -/
def firstMatch (cols : List String) (s : Sink) (rcd : Row) : Option Nat :=
  (s.rows.find? (fun p => nkMatches cols rcd p.2)).map (fun p => p.1)

/-- Does inserting `rcd` violate the table's unique constraint? -/
def hasConflict (s : Sink) (rcd : Row) : Bool :=
  (!s.uniqueCols.isEmpty) && hasMatch s.uniqueCols s rcd

/-- Does `rcd` leave a NOT NULL column null? -/
def notNullViolated (s : Sink) (rcd : Row) : Bool :=
  s.notNullCols.any (fun c => decide (rowGet rcd c = none))

/-- Outcome of executing the parameterised INSERT against the sink.
`ok` carries the generated key (RETURNING clause) and the new state;
`uniqueViolation` is sqlstate 23505, `otherIntegrity` any other
IntegrityError (e.g. a NOT NULL violation). -/
inductive InsertOutcome
  | ok (id : Nat) (s2 : Sink)
  | uniqueViolation
  | otherIntegrity
deriving DecidableEq

/-- The sink after a successful insert: the record is appended under the
next generated key and the sequence advances. -/
def insertedSink (s : Sink) (rcd : Row) : Sink :=
  { s with rows := s.rows ++ [(s.nextId, rcd)], nextId := s.nextId + 1 }

/-- The sink's INSERT: NOT NULL is checked before uniqueness, as
PostgreSQL does; a successful insert appends the record and advances the
key sequence. -/
def sinkInsert (s : Sink) (rcd : Row) : InsertOutcome :=
  if notNullViolated s rcd then InsertOutcome.otherIntegrity
  else if hasConflict s rcd then InsertOutcome.uniqueViolation
  else InsertOutcome.ok s.nextId (insertedSink s rcd)

/-- Does row `r` satisfy every WHERE clause of the recovery lookup? -/
def clausesMatch (cl : List (String × Cell)) (r : Row) : Bool :=
  cl.all (fun p => decide (rowGet r p.1 = p.2))

/-- The recovery SELECT: primary key of the first stored row satisfying
all clauses. -/
def sinkSelect (s : Sink) (cl : List (String × Cell)) : Option Nat :=
  (s.rows.find? (fun p => clausesMatch cl p.2)).map (fun p => p.1)

/-- Classified exit of the per-row loader (`insert_processed_data`'s loop
body): a fresh insert, an existing row recovered by natural key, or a skip. -/
inductive RowResult
  | inserted (id : Nat)
  | resolvedExisting (id : Nat)
  | skipped
deriving DecidableEq

/-- The warnings the loader prints; only their occurrence matters here. -/
inductive Warn
  | skipOtherIntegrity
  | dupNoNaturalKey
  | dupNotFound
  | dupUnmappedKey
  | fkUnresolved
  | invalidIndex
deriving DecidableEq

/-- The unique-violation recovery of `insert_processed_data` (lines
130-165 of `src/main.py`), entered after ROLLBACK TO SAVEPOINT: with no
natural key the row is skipped with a warning; with natural keys the
WHERE clauses are built (skipping with a warning when a key column is
unmappable) and the recovery SELECT either resurrects the existing id
or the row is skipped with a warning. -/
def uvRecover (mp : List (String × String)) (nk : List String) (row : Row) (s : Sink) :
    RowResult × Sink × List Warn :=
  if nk.isEmpty then (RowResult.skipped, s, [Warn.dupNoNaturalKey])
  else
    match nkClauses mp nk row with
    | some cl =>
      match sinkSelect s cl with
      | some id => (RowResult.resolvedExisting id, s, [])
      | none => (RowResult.skipped, s, [Warn.dupNotFound])
    | none => (RowResult.skipped, s, [Warn.dupUnmappedKey])

/-- One iteration of `insert_processed_data`'s row loop: SAVEPOINT,
INSERT, and on an IntegrityError ROLLBACK TO SAVEPOINT followed by the
classification of lines 128-170 of `src/main.py`.  A rollback restores
the sink exactly to its pre-row state, so failed branches return `s`
unchanged. -/
def rowStep (mp : List (String × String)) (nk : List String) (row : Row) (s : Sink) :
    RowResult × Sink × List Warn :=
  let rcd := mkRecord mp row
  match sinkInsert s rcd with
  | InsertOutcome.ok id s2 => (RowResult.inserted id, s2, [])
  | InsertOutcome.uniqueViolation => uvRecover mp nk row s
  | InsertOutcome.otherIntegrity => (RowResult.skipped, s, [Warn.skipOtherIntegrity])

/-- The row loop of `insert_processed_data`: successful identifiers in
order (`inserted_ids`, which receives both fresh and recovered ids),
final sink state, and emitted warnings. -/
def ipdGo (mp : List (String × String)) (nk : List String) :
    List Row → Sink → List Nat × Sink × List Warn
  | [], s => ([], s, [])
  | row :: rest, s =>
    let out := rowStep mp nk row s
    let tail := ipdGo mp nk rest out.2.1
    match out.1 with
    | RowResult.inserted id => (id :: tail.1, tail.2.1, out.2.2 ++ tail.2.2)
    | RowResult.resolvedExisting id => (id :: tail.1, tail.2.1, out.2.2 ++ tail.2.2)
    | RowResult.skipped => (tail.1, tail.2.1, out.2.2 ++ tail.2.2)

/-- Result of `insert_processed_data`: the list of successfully inserted
or retrieved row ids, the number of attempted rows, and the sink and
warnings.  `natural_key_columns=None` is modelled as the empty list
(both are falsy in the code). -/
structure IpdResult where
  inserted_ids : List Nat
  total : Nat
  sink : Sink
  warns : List Warn
deriving DecidableEq

/-- `insert_processed_data` of `src/main.py` (the primary-key column name
only shapes the SQL text; the RETURNING value is the generated key `id`
of the model's insert). -/
def insert_processed_data (mp : List (String × String)) (nk : List String)
    (data : List Row) (s : Sink) : IpdResult :=
  let out := ipdGo mp nk data s
  ⟨out.1, data.length, out.2.1, out.2.2⟩

/-- The per-source-row optional identifier: what each attempted row
contributed (`some id` when inserted or resolved, `none` when skipped).
`inserted_ids` is exactly this list with the `none`s dropped. -/
def rowIds (mp : List (String × String)) (nk : List String) :
    List Row → Sink → List (Option Nat)
  | [], _ => []
  | row :: rest, s =>
    let out := rowStep mp nk row s
    (match out.1 with
     | RowResult.inserted id => some id
     | RowResult.resolvedExisting id => some id
     | RowResult.skipped => none) :: rowIds mp nk rest out.2.1

/-- ASCII digit test (`str.isdigit` on the CSV data at hand). -/
def isDigitCh (c : Char) : Bool :=
  decide (48 ≤ c.toNat) && decide (c.toNat ≤ 57)

/-- Decimal value of a digit run; `none` on the first non-digit. -/
def digitsAux (acc : Nat) : List Char → Option Nat
  | [] => some acc
  | c :: rest => if isDigitCh c then digitsAux (10 * acc + (c.toNat - 48)) rest else none

/-- Decimal value of a non-empty all-digit character list. -/
def digitsVal : List Char → Option Nat
  | [] => none
  | c :: rest => digitsAux 0 (c :: rest)

/-- `placeholder.isdigit()` followed by `int(placeholder)`: `some` exactly
on a non-empty all-digit string, with its decimal value. -/
def strToNat (s : String) : Option Nat := digitsVal s.data

/-- One foreign-key configuration of `csv_mappings` in `src/main.py`.
The `placeholder_is_1_based_index` flag present in the source dictionaries
is never read by `main`'s resolution loop and is omitted. -/
structure FkConf where
  csv_fk_column : String
  parent_config_key : String
deriving DecidableEq

/-- `csv_row_to_db_id_maps`: per config key, the 0-based-position-to-id
dictionary built after each table's load. -/
abbrev IdMaps := List (String × List (Nat × Nat))

/-- `csv_row_to_db_id_maps.get(parent_key, {})`. -/
def mapsGet (maps : IdMaps) (k : String) : List (Nat × Nat) :=
  (alookup k maps).getD []

/-- `.get(parent_row_index)` with a possibly negative Python index
(`int(placeholder) - 1` is -1 for placeholder "0"): a negative key misses. -/
def ordLookup (m : List (Nat × Nat)) (i : Int) : Option Nat :=
  if i < 0 then none else alookup i.toNat m

/-- One iteration of the foreign-key rewriting loop of `main`
(`src/main.py` lines 619-632): a truthy all-digit placeholder is parsed,
decremented, and looked up in the parent map; a truthy hit rewrites the
column to the identifier, otherwise the column is set to `None` with a
warning; a blank or non-digit placeholder leaves the row untouched.
(`.isdigit()` is modelled as the ASCII digit test; an integer cell never
occurs here, each column being rewritten at most once.) -/
def resolveFk (maps : IdMaps) (fk : FkConf) (row : Row) : Row × List Warn :=
  match rowGet row fk.csv_fk_column with
  | some (Val.vs x) =>
    match strToNat x with
    | some k =>
      match ordLookup (mapsGet maps fk.parent_config_key) ((k : Int) - 1) with
      | some id =>
        if id = 0 then (rowSet row fk.csv_fk_column none, [Warn.fkUnresolved])
        else (rowSet row fk.csv_fk_column (some (Val.vn id)), [])
      | none => (rowSet row fk.csv_fk_column none, [Warn.fkUnresolved])
    | none => (row, [])
  | _ => (row, [])

/-- The full foreign-key pass over one row (`for fk_conf in fk_configs`). -/
def resolveRow (maps : IdMaps) (fks : List FkConf) (row : Row) : Row × List Warn :=
  fks.foldl (fun acc fk =>
    let out := resolveFk maps fk acc.1
    (out.1, acc.2 ++ out.2)) (row, [])

/-- One entry of `csv_mappings`: everything `main` reads from it. -/
structure TableCfg where
  key : String
  path : String
  dbId : String
  colMap : List (String × String)
  idCol : String
  nk : List String
  fks : List FkConf
deriving DecidableEq

/-- Outcome of `read_csv_data` for one table: the file is missing
(`FileNotFoundError`, caught and skipped), reading fails with any other
exception (critical, re-raised), or rows are returned (an empty file
yields `found []`). -/
inductive ReadResult
  | missing
  | fatal
  | found (rows : List Row)

/-- The row source: CSV path to read outcome. -/
abbrev Source := String → ReadResult

/-- The database visible through the single connection: sink state per
SQL table identifier. -/
abbrev DB := List (String × Sink)

/-- Sink of a table (a table never touched before defaults to an empty,
constraint-free sink; the schemas of interest are installed in the
initial state). -/
def dbGet (db : DB) (t : String) : Sink :=
  (alookup t db).getD { rows := [], nextId := 1, uniqueCols := [], notNullCols := [] }

def dbSet (db : DB) (t : String) (s : Sink) : DB := aset db t s

/-- Steps 2-4 of `main`'s per-table body: resolve foreign keys on every
row, insert the processed rows, and (only when at least one id was
obtained) store the enumeration of `inserted_ids` as the table's
ordinal-to-id map. -/
def loadTable (cfg : TableCfg) (rows : List Row) (maps : IdMaps) (db : DB) :
    DB × IdMaps × List Warn :=
  let pr := rows.map (fun r => resolveRow maps cfg.fks r)
  let processed := pr.map (fun p => p.1)
  let rws := (pr.map (fun p => p.2)).flatten
  let res := insert_processed_data cfg.colMap cfg.nk processed (dbGet db cfg.dbId)
  let maps2 :=
    if res.inserted_ids.isEmpty then maps
    else aset maps cfg.key (List.enum res.inserted_ids)
  (dbSet db cfg.dbId res.sink, maps2, rws ++ res.warns)

/-- The successful-identifier list a table's load produces (the value
`insert_processed_data` returns to `main` as `inserted_ids`). -/
def tableIds (cfg : TableCfg) (rows : List Row) (maps : IdMaps) (db : DB) : List Nat :=
  (insert_processed_data cfg.colMap cfg.nk
    ((rows.map (fun r => resolveRow maps cfg.fks r)).map (fun p => p.1))
    (dbGet db cfg.dbId)).inserted_ids

/-- The table loop of `main`: a missing or empty CSV skips the table; a
critical read failure propagates as the fatal error of the run; all
per-row failures were already absorbed below. -/
def sessGo (src : Source) : List TableCfg → DB → IdMaps → List Warn →
    Except Unit (DB × IdMaps × List Warn)
  | [], db, maps, ws => Except.ok (db, maps, ws)
  | cfg :: rest, db, maps, ws =>
    match src cfg.path with
    | ReadResult.fatal => Except.error ()
    | ReadResult.missing => sessGo src rest db maps ws
    | ReadResult.found [] => sessGo src rest db maps ws
    | ReadResult.found (row :: rows) =>
      let out := loadTable cfg (row :: rows) maps db
      sessGo src rest out.1 out.2.1 (ws ++ out.2.2)

/-- The whole load pass inside `main`'s outer try. -/
def runSession (cfgs : List TableCfg) (src : Source) (db : DB) :
    Except Unit (DB × IdMaps × List Warn) :=
  sessGo src cfgs db [] []

/-- Observable outcome of `main`: the state the outer transaction
published, how many times it committed, and whether it rolled back. -/
structure MainOut where
  committed : DB
  commits : Nat
  rolledBack : Bool
deriving DecidableEq

/-- `main`'s transaction skeleton: one outer try around the whole session;
on success `conn.commit()` publishes the session's final state exactly
once, on any escaped exception `conn.rollback()` restores the initial
state. -/
def mainRun (cfgs : List TableCfg) (src : Source) (db : DB) : MainOut :=
  match runSession cfgs src db with
  | Except.ok out => { committed := out.1, commits := 1, rolledBack := false }
  | Except.error _ => { committed := db, commits := 0, rolledBack := true }

/-! ### The reconciler of `src/debug.py` (Pass 2) -/

/-- A cell of a rewritten row in `debug.py`: the original CSV string or
the integer identifier substituted for a placeholder. -/
inductive DVal
  | ds (s : String)
  | dn (n : Nat)
deriving DecidableEq

/-- An original CSV row in `debug.py`: all values strings. -/
abbrev ORow := List (String × String)

/-- A corrected row: strings with identifiers substituted in. -/
abbrev DRow := List (String × DVal)

/-- One entry of `actual_id_cache`: a Python dict whose keys are natural
key strings or 0-based integer indices; the two key spaces never collide
and are modelled as two maps. -/
structure IdCache where
  byKey : List (String × Nat)
  byIdx : List (Nat × Nat)
deriving DecidableEq

abbrev CacheMap := List (String × IdCache)

def cacheGet (cache : CacheMap) (k : String) : IdCache :=
  (alookup k cache).getD { byKey := [], byIdx := [] }

/-- One foreign-key configuration of `TABLE_CONFIGS` in `src/debug.py`
(here the index flag is read). -/
structure DFkConf where
  csv_fk_column : String
  parent_config_key : String
  placeholder_is_1_based_index : Bool
deriving DecidableEq

/-- Whitespace stripped by Python `int(str)`. -/
def pySpace (c : Char) : Bool :=
  decide (c = ' ') || decide (c = '\t') || decide (c = '\n') || decide (c = '\r')

/-- Strip leading and trailing whitespace from a character list. -/
def trimChars (l : List Char) : List Char :=
  ((l.dropWhile pySpace).reverse.dropWhile pySpace).reverse

/-- Python `int(s)` on a string: optional surrounding whitespace and an
optional sign before the digits; anything else raises ValueError (`none`). -/
def pyInt (s : String) : Option Int :=
  match trimChars s.data with
  | [] => none
  | c :: rest =>
    if c = '-' then (digitsVal rest).map (fun n => -(n : Int))
    else if c = '+' then (digitsVal rest).map (fun n => (n : Int))
    else (digitsVal (c :: rest)).map (fun n => (n : Int))

/-- The identifier Pass 2 would substitute for placeholder `x` under
foreign key `fk`: by 0-based index into the parent's cached ids when the
placeholder is a 1-based index (a negative index is never looked up),
otherwise by the parent's natural-key cache. -/
def cacheResolve (cache : CacheMap) (fk : DFkConf) (x : String) : Option Nat :=
  if fk.placeholder_is_1_based_index then
    match pyInt x with
    | some k => if k - 1 < 0 then none else alookup (k - 1).toNat (cacheGet cache fk.parent_config_key).byIdx
    | none => none
  else alookup x (cacheGet cache fk.parent_config_key).byKey

/-- One `fk_conf` iteration of Pass 2 (`src/debug.py` lines 309-333):
the placeholder is read from the ORIGINAL row; blank or absent
placeholders are skipped silently; an unparsable index placeholder
prints an invalid-index warning; a resolved id is written into the new
row (`is not None`, so id 0 is written too); an unresolved placeholder
is left untouched with a warning. -/
def reconcileStep (cache : CacheMap) (orow : ORow) (acc : DRow × List Warn)
    (fk : DFkConf) : DRow × List Warn :=
  match alookup fk.csv_fk_column orow with
  | none => acc
  | some x =>
    if x = "" then acc
    else
      let w0 := if fk.placeholder_is_1_based_index && (pyInt x).isNone
                then [Warn.invalidIndex] else []
      match cacheResolve cache fk x with
      | some id => (aset acc.1 fk.csv_fk_column (DVal.dn id), acc.2 ++ w0)
      | none => (acc.1, acc.2 ++ w0 ++ [Warn.fkUnresolved])

/-- Pass 2 on one row: `new_row = original_row.copy()` followed by the
foreign-key loop. -/
def reconcileRow (cache : CacheMap) (fks : List DFkConf) (orow : ORow) :
    DRow × List Warn :=
  fks.foldl (reconcileStep cache orow) (orow.map (fun p => (p.1, DVal.ds p.2)), [])

/-! ### Concrete instances used to exercise the model -/

/-- A two-column table with no natural key whose sink requires column b:
its first row leaves b blank and is skipped, its second row inserts. -/
def cfgNoNk : TableCfg := ⟨"T", "t.csv", "t", [("a", "a"), ("b", "b")], "t_id", [], []⟩

def dbNoNk : DB := [("t", ⟨[], 5, [], ["b"]⟩)]

def dataNoNk : List Row := [rawRow [("a", "x"), ("b", "")], rawRow [("a", "y"), ("b", "z")]]

/-- A table with natural key a whose sink requires column b: row 0 is
skipped, rows 1 and 2 insert with ids 2 and 3. -/
def cfgNk : TableCfg := ⟨"T2", "t2.csv", "t2", [("a", "a"), ("b", "b")], "id", ["a"], []⟩

def dbNk : DB := [("t2", ⟨[], 2, ["a"], ["b"]⟩)]

def dataNk : List Row :=
  [rawRow [("a", "p"), ("b", "")], rawRow [("a", "q"), ("b", "u")],
   rawRow [("a", "r"), ("b", "v")]]

/-- A one-column natural-keyed parent table (the spec's "Color" shape)
whose sink numbers keys from 10, so positions and identifiers differ. -/
def mpColor : List (String × String) := [("name", "name")]

def sinkColor : Sink := ⟨[], 10, ["name"], []⟩

def dataColor : List Row :=
  [rawRow [("name", "red")], rawRow [("name", "green")], rawRow [("name", "blue")]]

/-- The ordinal-to-id maps after loading the parent above. -/
def mapsColor : IdMaps :=
  [("Color", List.enum (insert_processed_data mpColor ["name"] dataColor sinkColor).inserted_ids)]

/-- A Pass-1 cache for one parent table P: natural key k1 and ordinal 0
both map to id 5 in spirit (ordinal 0 holds 5 here). -/
def cacheW : CacheMap := [("P", ⟨[("k1", 7)], [(0, 5)]⟩)]

/-- Two index-mode foreign keys of a child table. -/
def fksW : List DFkConf := [⟨"c1", "P", true⟩, ⟨"c2", "P", true⟩]

/-- A child row: a resolvable placeholder, an unparsable one, and an
untouched payload column. -/
def orowW : ORow := [("c1", "1"), ("c2", "abc"), ("z", "q")]

/-! ### Association-list and list helper lemmas -/

lemma alookup_aset_self {κ : Type} {α : Type} [DecidableEq κ]
    (m : List (κ × α)) (k : κ) (v : α) : alookup k (aset m k v) = some v := by
  induction m with
  | nil => simp [aset, alookup]
  | cons p rest ih =>
    obtain ⟨k2, v2⟩ := p
    by_cases h : k2 = k
    · simp [aset, alookup, h]
    · simp [aset, alookup, h, ih]

lemma alookup_aset_ne {κ : Type} {α : Type} [DecidableEq κ]
    (m : List (κ × α)) (k k3 : κ) (v : α) (h : k ≠ k3) :
    alookup k3 (aset m k v) = alookup k3 m := by
  induction m with
  | nil => simp [aset, alookup, h]
  | cons p rest ih =>
    obtain ⟨k2, v2⟩ := p
    by_cases h2 : k2 = k
    · subst h2
      simp [aset, alookup, h]
    · by_cases h3 : k2 = k3
      · subst h3
        simp [aset, alookup, h2, Ne.symm h]
      · simp [aset, alookup, h2, h3, ih]

lemma isEmpty_false_of_ne {α : Type} {l : List α} (h : l ≠ []) :
    l.isEmpty = false := by
  cases l with
  | nil => exact absurd rfl h
  | cons a t => rfl

lemma myFind_append_isSome {α : Type} (p : α → Bool) {l1 : List α} (l2 : List α)
    (h : (l1.find? p).isSome) : (l1 ++ l2).find? p = l1.find? p := by
  induction l1 with
  | nil => simp [List.find?] at h
  | cons a t ih =>
    cases hpa : p a with
    | true => simp [List.find?, hpa]
    | false =>
      simp only [List.find?, hpa] at h
      simp [List.find?, hpa, ih h]

lemma myFind_append_none {α : Type} (p : α → Bool) {l1 : List α} (l2 : List α)
    (h : l1.find? p = none) : (l1 ++ l2).find? p = l2.find? p := by
  induction l1 with
  | nil => simp
  | cons a t ih =>
    cases hpa : p a with
    | true => simp [List.find?, hpa] at h
    | false =>
      simp only [List.find?, hpa] at h
      simp [List.find?, hpa, ih h]

lemma myFind_isSome_of_any {α : Type} (p : α → Bool) {l : List α}
    (h : l.any p = true) : (l.find? p).isSome := by
  induction l with
  | nil => simp at h
  | cons a t ih =>
    cases hpa : p a with
    | true => simp [List.find?, hpa]
    | false =>
      simp only [List.any_cons, hpa, Bool.false_or] at h
      simp [List.find?, hpa, ih h]

lemma myFind_none_of_any_false {α : Type} (p : α → Bool) {l : List α}
    (h : l.any p = false) : l.find? p = none := by
  induction l with
  | nil => rfl
  | cons a t ih =>
    simp only [List.any_cons, Bool.or_eq_false_iff] at h
    simp [List.find?, h.1, ih h.2]

/-! ### Case lemmas for the row loader -/

lemma sinkInsert_of_nn (s : Sink) (rcd : Row) (h : notNullViolated s rcd = true) :
    sinkInsert s rcd = InsertOutcome.otherIntegrity := by
  simp [sinkInsert, h]

lemma sinkInsert_of_conf (s : Sink) (rcd : Row) (h1 : notNullViolated s rcd = false)
    (h2 : hasConflict s rcd = true) : sinkInsert s rcd = InsertOutcome.uniqueViolation := by
  simp [sinkInsert, h1, h2]

lemma sinkInsert_of_free (s : Sink) (rcd : Row) (h1 : notNullViolated s rcd = false)
    (h2 : hasConflict s rcd = false) :
    sinkInsert s rcd = InsertOutcome.ok s.nextId (insertedSink s rcd) := by
  simp [sinkInsert, h1, h2]

lemma rowStep_eq_of_ok (mp : List (String × String)) (nk : List String) (row : Row)
    (s s2 : Sink) (id : Nat) (h : sinkInsert s (mkRecord mp row) = InsertOutcome.ok id s2) :
    rowStep mp nk row s = (RowResult.inserted id, s2, []) := by
  simp [rowStep, h]

lemma rowStep_eq_of_uv (mp : List (String × String)) (nk : List String) (row : Row)
    (s : Sink) (h : sinkInsert s (mkRecord mp row) = InsertOutcome.uniqueViolation) :
    rowStep mp nk row s = uvRecover mp nk row s := by
  simp [rowStep, h]

lemma rowStep_eq_of_other (mp : List (String × String)) (nk : List String) (row : Row)
    (s : Sink) (h : sinkInsert s (mkRecord mp row) = InsertOutcome.otherIntegrity) :
    rowStep mp nk row s = (RowResult.skipped, s, [Warn.skipOtherIntegrity]) := by
  simp [rowStep, h]

lemma uvRecover_sink (mp : List (String × String)) (nk : List String) (row : Row)
    (s : Sink) : (uvRecover mp nk row s).2.1 = s := by
  unfold uvRecover
  split
  · rfl
  · cases hcl : nkClauses mp nk row with
    | none => simp [hcl]
    | some cl =>
      cases hsel : sinkSelect s cl with
      | none => simp [hcl, hsel]
      | some id => simp [hcl, hsel]

lemma uvRecover_cases (mp : List (String × String)) (nk : List String) (row : Row)
    (s : Sink) :
    (∃ id, uvRecover mp nk row s = (RowResult.resolvedExisting id, s, [])) ∨
    (∃ w, uvRecover mp nk row s = (RowResult.skipped, s, [w])) := by
  unfold uvRecover
  split
  · exact Or.inr ⟨Warn.dupNoNaturalKey, rfl⟩
  · cases hcl : nkClauses mp nk row with
    | none => exact Or.inr ⟨Warn.dupUnmappedKey, by simp [hcl]⟩
    | some cl =>
      cases hsel : sinkSelect s cl with
      | none => exact Or.inr ⟨Warn.dupNotFound, by simp [hcl, hsel]⟩
      | some id => exact Or.inl ⟨id, by simp [hcl, hsel]⟩

lemma alookup_enumFrom (l : List Nat) : ∀ (n j : Nat),
    alookup (n + j) (List.enumFrom n l) = l.get? j := by
  induction l with
  | nil => intro n j; simp [List.enumFrom, alookup]
  | cons a t ih =>
    intro n j
    cases j with
    | zero => simp [List.enumFrom, alookup]
    | succ j2 =>
      have h1 : ¬(n = n + (j2 + 1)) := by omega
      have h2 : n + (j2 + 1) = (n + 1) + j2 := by omega
      simp only [List.enumFrom, alookup, h1, if_false]
      rw [h2, ih (n + 1) j2]
      rfl

lemma alookup_enum (l : List Nat) (j : Nat) : alookup j (List.enum l) = l.get? j := by
  have h := alookup_enumFrom l 0 j
  rw [Nat.zero_add] at h
  rw [List.enum]
  exact h

/-! ### Claims about the session-level ordinal maps (C1, C8) -/

/-- Claim C1 (code bug): the per-table ordinal map is NOT keyed by source
row ordinal once a row is skipped.  Here row 0 is skipped (NOT NULL
violation) and row 1 inserts with id 5, yet the stored map is
`{0: 5}` — an entry for the skipped ordinal 0 holding the id obtained
for row 1, and no entry for ordinal 1 — contradicting the code's own
comments ("mapping of a CSV's 0-based row index to the actual database
ID generated upon insertion"). -/
theorem claim_C1_ordinal_map_shift :
    rowIds cfgNoNk.colMap cfgNoNk.nk dataNoNk (dbGet dbNoNk "t") = [none, some 5] ∧
    (loadTable cfgNoNk dataNoNk [] dbNoNk).2.1 = [("T", [(0, 5)])] := by
  decide

/-- Claim C8 (counterexample): row 2 of this load inserts successfully
(per-row ids are `[none, some 2, some 3]`), yet the session map holds no
entry under its ordinal 2 — the identifier was recorded under key 1, its
position among successes — and no natural-key map exists anywhere in the
session state, although the table declares natural keys. -/
theorem claim_C8_counterexample :
    rowIds cfgNk.colMap cfgNk.nk dataNk (dbGet dbNk "t2") = [none, some 2, some 3] ∧
    (loadTable cfgNk dataNk [] dbNk).2.1 = [("T2", [(0, 2), (1, 3)])] ∧
    alookup 2 (mapsGet (loadTable cfgNk dataNk [] dbNk).2.1 "T2") = none := by
  decide

/-- Claim C8 (amended): the loader appends each obtained identifier to
the table's success list, and the session keys that list by success
position: the j-th successful identifier is recorded under key j (which
equals the source ordinal only when no earlier row was skipped).  No
natural-key map is maintained. -/
theorem claim_C8_amended_success_position (cfg : TableCfg) (rows : List Row)
    (maps : IdMaps) (db : DB) (j : Nat)
    (hj : j < (tableIds cfg rows maps db).length) :
    alookup j (mapsGet (loadTable cfg rows maps db).2.1 cfg.key)
      = (tableIds cfg rows maps db).get? j := by
  have hne : (tableIds cfg rows maps db).isEmpty = false := by
    apply isEmpty_false_of_ne
    intro h
    rw [h] at hj
    simp at hj
  have hmaps : (loadTable cfg rows maps db).2.1
      = aset maps cfg.key (List.enum (tableIds cfg rows maps db)) := by
    show (if (tableIds cfg rows maps db).isEmpty then maps
          else aset maps cfg.key (List.enum (tableIds cfg rows maps db))) = _
    rw [hne]
    simp
  rw [hmaps]
  unfold mapsGet
  rw [alookup_aset_self]
  simp [alookup_enum]

/-- Witness for C8 amended: in the concrete run above, success position 1
resolves to id 3 through the stored map. -/
theorem claim_C8_amended_witness :
    alookup 1 (mapsGet (loadTable cfgNk dataNk [] dbNk).2.1 "T2")
      = (tableIds cfgNk dataNk [] dbNk).get? 1 ∧
    (tableIds cfgNk dataNk [] dbNk).get? 1 = some 3 :=
  ⟨claim_C8_amended_success_position cfgNk dataNk [] dbNk 1 (by decide), by decide⟩

/-! ### Claims about foreign-key resolution (C10, C5) -/

/-- Claim C10: with a parent map recording database identifier 0 for
ordinal 0, the placeholder "1" finds the entry yet is treated as
unresolved — the code tests the looked-up id for truthiness, not
presence — and the child column is set to null with a warning. -/
theorem claim_C10_zero_id_truthiness :
    ordLookup (mapsGet [("P", [(0, 0)])] "P") ((1 : Int) - 1) = some 0 ∧
    resolveFk [("P", [(0, 0)])] ⟨"c", "P"⟩ (rawRow [("c", "1")])
      = (rowSet (rawRow [("c", "1")]) "c" none, [Warn.fkUnresolved]) := by
  decide

/-- Claim C5 (counterexample): the non-blank, non-integer placeholder
"abc" is NOT resolved to "no value" with a warning: the resolution loop
leaves the row completely untouched — the placeholder string survives
and no warning is recorded. -/
theorem claim_C5_counterexample :
    resolveFk mapsColor ⟨"order_item_id", "Color"⟩ (rawRow [("order_item_id", "abc")])
      = (rawRow [("order_item_id", "abc")], []) ∧
    rowGet (resolveFk mapsColor ⟨"order_item_id", "Color"⟩
        (rawRow [("order_item_id", "abc")])).1 "order_item_id"
      = some (Val.vs "abc") := by
  decide

/-- Claim C5 (amended): a blank or absent placeholder leaves the row
untouched with no warning and is normalised to SQL NULL at insert time;
a non-blank placeholder that is not all digits likewise leaves the row
untouched with no warning (it is passed to the insert as the original
string, not replaced by "no value"). -/
theorem claim_C5_amended_blank_and_nondigit (maps : IdMaps) (fk : FkConf) (row : Row) :
    ((rowGet row fk.csv_fk_column = none ∨
        rowGet row fk.csv_fk_column = some (Val.vs "")) →
      resolveFk maps fk row = (row, []) ∧ norm (rowGet row fk.csv_fk_column) = none) ∧
    (∀ x, rowGet row fk.csv_fk_column = some (Val.vs x) → strToNat x = none →
      resolveFk maps fk row = (row, [])) := by
  constructor
  · intro h
    have hempty : strToNat "" = none := rfl
    rcases h with h | h
    · constructor
      · simp [resolveFk, h]
      · simp [norm, h]
    · constructor
      · simp [resolveFk, h, hempty]
      · simp [norm, h]
  · intro x hx hparse
    simp [resolveFk, hx, hparse]

/-- Witness for C5 amended, at a blank and at a non-digit placeholder. -/
theorem claim_C5_amended_witness :
    resolveFk mapsColor ⟨"c", "Color"⟩ (rawRow [("c", "")]) = (rawRow [("c", "")], []) ∧
    resolveFk mapsColor ⟨"c", "Color"⟩ (rawRow [("c", "x1")]) = (rawRow [("c", "x1")], []) :=
  ⟨((claim_C5_amended_blank_and_nondigit mapsColor ⟨"c", "Color"⟩
      (rawRow [("c", "")])).1 (Or.inr (by decide))).1,
   (claim_C5_amended_blank_and_nondigit mapsColor ⟨"c", "Color"⟩
      (rawRow [("c", "x1")])).2 "x1" (by decide) (by decide)⟩

/-! ### The inserted record versus the recovery clauses (C3) -/

lemma rowGet_mkRecord (mp : List (String × String)) (row : Row) (c : String) :
    rowGet (mkRecord mp row) c
      = match headerFor mp c with
        | some h => norm (rowGet row h)
        | none => none := by
  induction mp with
  | nil => simp [mkRecord, rowGet, alookup, headerFor]
  | cons p rest ih =>
    obtain ⟨h0, d0⟩ := p
    by_cases hd : d0 = c
    · subst hd
      simp [mkRecord, rowGet, alookup, headerFor, List.find?]
    · simpa [mkRecord, rowGet, alookup, headerFor, List.find?, hd] using ih

lemma nkClauses_eq (mp : List (String × String)) (row : Row) : ∀ (nk : List String),
    (∀ c ∈ nk, (headerFor mp c).isSome = true) →
    nkClauses mp nk row = some (nk.map (fun c => (c, rowGet (mkRecord mp row) c))) := by
  intro nk
  induction nk with
  | nil => intro h; simp [nkClauses]
  | cons c rest ih =>
    intro h
    have hc : (headerFor mp c).isSome = true := h c (by simp)
    obtain ⟨h0, hh0⟩ := Option.isSome_iff_exists.mp hc
    have hrest := ih (fun d hd => h d (by simp [hd]))
    simp only [nkClauses, hh0, hrest, List.map_cons]
    rw [rowGet_mkRecord, hh0]

lemma clausesMatch_eq (rcd r : Row) : ∀ (nk : List String),
    clausesMatch (nk.map (fun c => (c, rowGet rcd c))) r = nkMatches nk rcd r := by
  intro nk
  induction nk with
  | nil => rfl
  | cons c rest ih =>
    unfold clausesMatch nkMatches at *
    simp only [List.map_cons, List.all_cons]
    rw [ih]

lemma sinkSelect_nk (s : Sink) (nk : List String) (rcd : Row) :
    sinkSelect s (nk.map (fun c => (c, rowGet rcd c))) = firstMatch nk s rcd := by
  unfold sinkSelect firstMatch
  simp only [clausesMatch_eq]

/-- Claim C3: on a uniqueness violation the loader first restores the
row's savepoint (the sink is exactly its pre-row state).  With natural
keys declared (and mappable), the recovery lookup selects the key by
equality on each natural-key column of the normalised record — a blank
or absent value having been normalised to NULL, matched by the IS NULL
predicate — and a hit is recorded as a resolved success while a miss
skips the row with a warning; with no natural key the row is skipped
with a warning; a skipped row contributes no identifier. -/
theorem claim_C3_unique_violation_recovery (mp : List (String × String))
    (nk : List String) (row : Row) (s : Sink)
    (huv : sinkInsert s (mkRecord mp row) = InsertOutcome.uniqueViolation) :
    (rowStep mp nk row s).2.1 = s ∧
    (nk = [] → rowStep mp nk row s = (RowResult.skipped, s, [Warn.dupNoNaturalKey])) ∧
    (∀ v : Cell, norm v = none ↔ v = none ∨ v = some (Val.vs "")) ∧
    (nk ≠ [] → (∀ c ∈ nk, (headerFor mp c).isSome = true) →
      (∀ id, firstMatch nk s (mkRecord mp row) = some id →
        rowStep mp nk row s = (RowResult.resolvedExisting id, s, [])) ∧
      (firstMatch nk s (mkRecord mp row) = none →
        rowStep mp nk row s = (RowResult.skipped, s, [Warn.dupNotFound]))) ∧
    (∀ rest, (rowStep mp nk row s).1 = RowResult.skipped →
      (ipdGo mp nk (row :: rest) s).1 = (ipdGo mp nk rest s).1) := by
  have hstep := rowStep_eq_of_uv mp nk row s huv
  refine ⟨?_, ?_, ?_, ?_, ?_⟩
  · rw [hstep]
    exact uvRecover_sink mp nk row s
  · intro h
    subst h
    rw [hstep]
    unfold uvRecover
    simp [List.isEmpty]
  · intro v
    by_cases hv : v = some (Val.vs "")
    · simp [norm, hv]
    · simp [norm, hv]
  · intro hne hmap
    have hcl := nkClauses_eq mp row nk hmap
    have hie := isEmpty_false_of_ne hne
    constructor
    · intro id hid
      rw [hstep]
      unfold uvRecover
      rw [hie]
      simp only [Bool.false_eq_true, if_false, hcl, sinkSelect_nk, hid]
    · intro hid
      rw [hstep]
      unfold uvRecover
      rw [hie]
      simp only [Bool.false_eq_true, if_false, hcl, sinkSelect_nk, hid]
  · intro rest hskip
    have h1 : (rowStep mp nk row s).2.1 = s := by
      rw [hstep]
      exact uvRecover_sink mp nk row s
    simp [ipdGo, hskip, h1]

/-- Witness for C3: a one-column natural-keyed table whose row collides
with the stored row of id 7; the loader rolls back and resolves to 7. -/
theorem claim_C3_witness :
    sinkInsert (⟨[(7, [("a", some (Val.vs "x"))])], 9, ["a"], []⟩ : Sink)
        (mkRecord [("a", "a")] (rawRow [("a", "x")])) = InsertOutcome.uniqueViolation ∧
    rowStep [("a", "a")] ["a"] (rawRow [("a", "x")])
        ⟨[(7, [("a", some (Val.vs "x"))])], 9, ["a"], []⟩
      = (RowResult.resolvedExisting 7, ⟨[(7, [("a", some (Val.vs "x"))])], 9, ["a"], []⟩, []) :=
  ⟨by decide,
   ((claim_C3_unique_violation_recovery [("a", "a")] ["a"] (rawRow [("a", "x")])
      ⟨[(7, [("a", some (Val.vs "x"))])], 9, ["a"], []⟩ (by decide)).2.2.2.1
      (by decide) (by decide)).1 7 (by decide)⟩

/-! ### Attribution of successful identifiers to source rows (C4) -/

lemma ipdGo_ids_eq (mp : List (String × String)) (nk : List String) :
    ∀ (data : List Row) (s : Sink),
    (ipdGo mp nk data s).1 = (rowIds mp nk data s).filterMap (fun o => o) := by
  intro data
  induction data with
  | nil => intro s; rfl
  | cons row rest ih =>
    intro s
    rcases hstep : rowStep mp nk row s with ⟨res, s2, w⟩
    cases res <;> simp [ipdGo, rowIds, hstep, ih]

lemma ipdGo_ids_length_le (mp : List (String × String)) (nk : List String) :
    ∀ (data : List Row) (s : Sink), (ipdGo mp nk data s).1.length ≤ data.length := by
  intro data
  induction data with
  | nil => intro s; simp [ipdGo]
  | cons row rest ih =>
    intro s
    rcases hstep : rowStep mp nk row s with ⟨res, s2, w⟩
    cases res <;> simp [ipdGo, hstep] <;> have := ih s2 <;> omega

lemma ids_get_of_full (mp : List (String × String)) (nk : List String) :
    ∀ (data : List Row) (s : Sink),
    (ipdGo mp nk data s).1.length = data.length →
    ∀ j, (ipdGo mp nk data s).1.get? j
      = ((rowIds mp nk data s).get? j).bind (fun o => o) := by
  intro data
  induction data with
  | nil => intro s h j; simp [ipdGo, rowIds]
  | cons row rest ih =>
    intro s h j
    rcases hstep : rowStep mp nk row s with ⟨res, s2, w⟩
    cases res with
    | inserted id =>
      have h2 : (ipdGo mp nk rest s2).1.length = rest.length := by
        simp [ipdGo, hstep] at h
        exact h
      cases j with
      | zero => simp [ipdGo, rowIds, hstep]
      | succ j2 =>
        have h3 := ih s2 h2 j2
        simp [ipdGo, rowIds, hstep] at h3 ⊢
        exact h3
    | resolvedExisting id =>
      have h2 : (ipdGo mp nk rest s2).1.length = rest.length := by
        simp [ipdGo, hstep] at h
        exact h
      cases j with
      | zero => simp [ipdGo, rowIds, hstep]
      | succ j2 =>
        have h3 := ih s2 h2 j2
        simp [ipdGo, rowIds, hstep] at h3 ⊢
        exact h3
    | skipped =>
      exfalso
      have hle := ipdGo_ids_length_le mp nk rest s2
      simp [ipdGo, hstep] at h
      omega

/-- Claim C4: an all-digit ordinal placeholder k is decremented and looked
up at 0-based position k-1 of the parent's map: a truthy hit rewrites the
column to that identifier, a miss sets the column to "no value" with a
warning.  When the parent's map comes from a skip-free load of its table
(one identifier per source row), the value found at k-1 is exactly the
identifier the parent's k-th source row obtained — not the literal k. -/
theorem claim_C4_ordinal_resolution (maps : IdMaps) (fk : FkConf) (row : Row)
    (x : String) (k : Nat)
    (hx : rowGet row fk.csv_fk_column = some (Val.vs x))
    (hk : strToNat x = some k) :
    (∀ id, ordLookup (mapsGet maps fk.parent_config_key) ((k : Int) - 1) = some id →
      id ≠ 0 →
      resolveFk maps fk row = (rowSet row fk.csv_fk_column (some (Val.vn id)), [])) ∧
    (ordLookup (mapsGet maps fk.parent_config_key) ((k : Int) - 1) = none →
      resolveFk maps fk row = (rowSet row fk.csv_fk_column none, [Warn.fkUnresolved])) ∧
    (∀ (mp2 : List (String × String)) (nk2 : List String) (pdata : List Row) (ps : Sink),
      mapsGet maps fk.parent_config_key
        = List.enum (insert_processed_data mp2 nk2 pdata ps).inserted_ids →
      (insert_processed_data mp2 nk2 pdata ps).inserted_ids.length = pdata.length →
      1 ≤ k → k ≤ pdata.length →
      ∃ id, (rowIds mp2 nk2 pdata ps).get? (k - 1) = some (some id) ∧
        ordLookup (mapsGet maps fk.parent_config_key) ((k : Int) - 1) = some id) := by
  refine ⟨?_, ?_, ?_⟩
  · intro id hid hne0
    simp [resolveFk, hx, hk, hid, hne0]
  · intro hid
    simp [resolveFk, hx, hk, hid]
  · intro mp2 nk2 pdata ps hmapeq hfull hk1 hk2
    have hfull2 : (ipdGo mp2 nk2 pdata ps).1.length = pdata.length := hfull
    have hlt : k - 1 < (ipdGo mp2 nk2 pdata ps).1.length := by
      rw [hfull2]
      omega
    obtain ⟨v, hv⟩ : ∃ v, (ipdGo mp2 nk2 pdata ps).1.get? (k - 1) = some v := by
      rw [List.get?_eq_get hlt]
      exact ⟨_, rfl⟩
    refine ⟨v, ?_, ?_⟩
    · have hget := ids_get_of_full mp2 nk2 pdata ps hfull2 (k - 1)
      rw [hv] at hget
      rcases hrow : (rowIds mp2 nk2 pdata ps).get? (k - 1) with _ | o
      · rw [hrow] at hget
        simp at hget
      · rw [hrow] at hget
        simp only [Option.some_bind] at hget
        rw [← hget]
    · rw [hmapeq]
      have hneg : ¬((k : Int) - 1 < 0) := by omega
      have htn : ((k : Int) - 1).toNat = k - 1 := by omega
      unfold ordLookup
      rw [if_neg hneg, htn, alookup_enum]
      exact hv

/-- Witness for C4 (the spec's Color scenario with identifiers starting
at 10): the parent's three rows obtain ids 10, 11, 12, and the child
placeholder "2" resolves to 11 — the id of the parent's 2nd source row,
not the literal 2. -/
theorem claim_C4_witness :
    rowIds mpColor ["name"] dataColor sinkColor = [some 10, some 11, some 12] ∧
    resolveFk mapsColor ⟨"engine_type_id", "Color"⟩ (rawRow [("engine_type_id", "2")])
      = (rowSet (rawRow [("engine_type_id", "2")]) "engine_type_id"
          (some (Val.vn 11)), []) :=
  ⟨by decide,
   (claim_C4_ordinal_resolution mapsColor ⟨"engine_type_id", "Color"⟩
      (rawRow [("engine_type_id", "2")]) "2" 2 (by decide) (by decide)).1 11
      (by decide) (by decide)⟩

/-! ### Claim C6: the outer transaction -/

/-- Claim C6: any fatal error escaping the per-row loader rolls the whole
outer transaction back — the published state is exactly the initial one,
with zero commits — while a run in which every table completes commits
exactly once, publishing the session's final state atomically. -/
theorem claim_C6_outer_transaction (cfgs : List TableCfg) (src : Source) (db : DB) :
    (∀ e, runSession cfgs src db = Except.error e →
      mainRun cfgs src db = ⟨db, 0, true⟩) ∧
    (∀ out, runSession cfgs src db = Except.ok out →
      mainRun cfgs src db = ⟨out.1, 1, false⟩) := by
  constructor
  · intro e h
    simp [mainRun, h]
  · intro out h
    simp [mainRun, h]

/-- Witness for C6: a run whose first table's CSV read fails fatally is
rolled back to the initial database with zero commits. -/
theorem claim_C6_witness :
    runSession [cfgNoNk] (fun _ => ReadResult.fatal) [] = Except.error () ∧
    mainRun [cfgNoNk] (fun _ => ReadResult.fatal) [] = ⟨[], 0, true⟩ :=
  ⟨rfl, (claim_C6_outer_transaction [cfgNoNk] (fun _ => ReadResult.fatal) []).1 () rfl⟩

/-- Claim C7: every per-row outcome is absorbed and classified.  The row
loader is a total function into the three exit states; whenever the row
does not insert freshly, the sink is exactly its pre-row state (the
rollback erased the attempt) and a skip carries exactly one warning; no
branch escapes the layer. -/
theorem claim_C7_row_loader_absorbs (mp : List (String × String)) (nk : List String)
    (row : Row) (s : Sink) :
    (∃ id s2, rowStep mp nk row s = (RowResult.inserted id, s2, [])) ∨
    (∃ id, rowStep mp nk row s = (RowResult.resolvedExisting id, s, [])) ∨
    (∃ w, rowStep mp nk row s = (RowResult.skipped, s, [w])) := by
  cases hins : sinkInsert s (mkRecord mp row) with
  | ok id s2 => exact Or.inl ⟨id, s2, rowStep_eq_of_ok mp nk row s s2 id hins⟩
  | uniqueViolation =>
    rcases uvRecover_cases mp nk row s with ⟨id, h⟩ | ⟨w, h⟩
    · exact Or.inr (Or.inl ⟨id, (rowStep_eq_of_uv mp nk row s hins).trans h⟩)
    · exact Or.inr (Or.inr ⟨w, (rowStep_eq_of_uv mp nk row s hins).trans h⟩)
  | otherIntegrity =>
    exact Or.inr (Or.inr ⟨Warn.skipOtherIntegrity, rowStep_eq_of_other mp nk row s hins⟩)

/-! ### Sink evolution lemmas (C2) -/

lemma bool_eq_false_of_ne_true {b : Bool} (h : ¬(b = true)) : b = false := by
  cases hb : b with
  | true => exact absurd hb h
  | false => rfl

lemma rowStep_shape (mp : List (String × String)) (nk : List String) (row : Row)
    (s : Sink) :
    (rowStep mp nk row s).2.1 = s ∨
    ((rowStep mp nk row s).2.1 = insertedSink s (mkRecord mp row)
      ∧ notNullViolated s (mkRecord mp row) = false
      ∧ hasConflict s (mkRecord mp row) = false) := by
  by_cases hnn : notNullViolated s (mkRecord mp row) = true
  · left
    rw [rowStep_eq_of_other mp nk row s (sinkInsert_of_nn s _ hnn)]
  · have hnn2 := bool_eq_false_of_ne_true hnn
    by_cases hcf : hasConflict s (mkRecord mp row) = true
    · left
      rw [rowStep_eq_of_uv mp nk row s (sinkInsert_of_conf s _ hnn2 hcf)]
      exact uvRecover_sink mp nk row s
    · have hcf2 := bool_eq_false_of_ne_true hcf
      right
      refine ⟨?_, hnn2, hcf2⟩
      rw [rowStep_eq_of_ok mp nk row s _ _ (sinkInsert_of_free s _ hnn2 hcf2)]

lemma rowStep_uniqueCols (mp : List (String × String)) (nk : List String) (row : Row)
    (s : Sink) : (rowStep mp nk row s).2.1.uniqueCols = s.uniqueCols := by
  rcases rowStep_shape mp nk row s with h | ⟨h, _, _⟩ <;> simp [h, insertedSink]

lemma rowStep_notNullCols (mp : List (String × String)) (nk : List String) (row : Row)
    (s : Sink) : (rowStep mp nk row s).2.1.notNullCols = s.notNullCols := by
  rcases rowStep_shape mp nk row s with h | ⟨h, _, _⟩ <;> simp [h, insertedSink]

lemma ipdGo_sink_cons (mp : List (String × String)) (nk : List String) (row : Row)
    (rest : List Row) (s : Sink) :
    (ipdGo mp nk (row :: rest) s).2.1
      = (ipdGo mp nk rest (rowStep mp nk row s).2.1).2.1 := by
  rcases hstep : rowStep mp nk row s with ⟨res, s2, w⟩
  cases res <;> simp [ipdGo, hstep]

lemma ipdGo_uniqueCols (mp : List (String × String)) (nk : List String) :
    ∀ (data : List Row) (s : Sink), (ipdGo mp nk data s).2.1.uniqueCols = s.uniqueCols := by
  intro data
  induction data with
  | nil => intro s; rfl
  | cons row rest ih =>
    intro s
    rw [ipdGo_sink_cons mp nk row rest s, ih, rowStep_uniqueCols]

lemma ipdGo_notNullCols (mp : List (String × String)) (nk : List String) :
    ∀ (data : List Row) (s : Sink),
    (ipdGo mp nk data s).2.1.notNullCols = s.notNullCols := by
  intro data
  induction data with
  | nil => intro s; rfl
  | cons row rest ih =>
    intro s
    rw [ipdGo_sink_cons mp nk row rest s, ih, rowStep_notNullCols]

lemma nkMatches_self (cols : List String) (rcd : Row) : nkMatches cols rcd rcd = true := by
  unfold nkMatches
  rw [List.all_eq_true]
  intro c hc
  simp

lemma hasMatch_ext (cols : List String) (s s2 : Sink) (rcd : Row)
    (l : List (Nat × Row)) (h : s2.rows = s.rows ++ l)
    (hm : hasMatch cols s rcd = true) : hasMatch cols s2 rcd = true := by
  unfold hasMatch at *
  rw [h, List.any_append, hm]
  rfl

lemma firstMatch_ext (cols : List String) (s s2 : Sink) (rcd : Row)
    (l : List (Nat × Row)) (h : s2.rows = s.rows ++ l)
    (hm : hasMatch cols s rcd = true) :
    firstMatch cols s2 rcd = firstMatch cols s rcd := by
  unfold firstMatch
  unfold hasMatch at hm
  rw [h, myFind_append_isSome _ _ (myFind_isSome_of_any _ hm)]

lemma hasMatch_inserted (cols : List String) (s s2 : Sink) (rcd : Row) (nid : Nat)
    (h : s2.rows = s.rows ++ [(nid, rcd)]) : hasMatch cols s2 rcd = true := by
  unfold hasMatch
  rw [h, List.any_append]
  simp [nkMatches_self]

lemma firstMatch_inserted (cols : List String) (s s2 : Sink) (rcd : Row) (nid : Nat)
    (h : s2.rows = s.rows ++ [(nid, rcd)]) (hno : hasMatch cols s rcd = false) :
    firstMatch cols s2 rcd = some nid := by
  unfold firstMatch
  unfold hasMatch at hno
  rw [h, myFind_append_none _ _ (myFind_none_of_any_false _ hno)]
  simp [List.find?, nkMatches_self]

lemma firstMatch_isSome (cols : List String) (s : Sink) (rcd : Row)
    (h : hasMatch cols s rcd = true) : ∃ id, firstMatch cols s rcd = some id := by
  unfold hasMatch at h
  unfold firstMatch
  obtain ⟨p, hp⟩ := Option.isSome_iff_exists.mp (myFind_isSome_of_any _ h)
  exact ⟨p.1, by rw [hp]; rfl⟩

/-- After every prefix of a table load, a record that already had a match
keeps the same first match: successful inserts are only appended, and a
record whose key tuple is already present can never be inserted again. -/
lemma ipd_stable (mp : List (String × String)) (nk : List String) (cols : List String) :
    ∀ (data : List Row) (s : Sink) (rcd : Row), hasMatch cols s rcd = true →
    hasMatch cols (ipdGo mp nk data s).2.1 rcd = true ∧
    firstMatch cols (ipdGo mp nk data s).2.1 rcd = firstMatch cols s rcd := by
  intro data
  induction data with
  | nil => intro s rcd h; exact ⟨h, rfl⟩
  | cons row rest ih =>
    intro s rcd h
    rw [ipdGo_sink_cons mp nk row rest s]
    rcases rowStep_shape mp nk row s with hsh | ⟨hsh, _, _⟩
    · rw [hsh]
      exact ih s rcd h
    · have hrows : (rowStep mp nk row s).2.1.rows
          = s.rows ++ [(s.nextId, mkRecord mp row)] := by rw [hsh]; rfl
      have hm := hasMatch_ext cols s _ rcd _ hrows h
      have hf := firstMatch_ext cols s _ rcd _ hrows h
      obtain ⟨hm2, hf2⟩ := ih (rowStep mp nk row s).2.1 rcd hm
      exact ⟨hm2, hf2.trans hf⟩

lemma hasConflict_eq (s : Sink) (nk : List String) (rcd : Row)
    (h : s.uniqueCols = nk) (hne : nk ≠ []) :
    hasConflict s rcd = hasMatch nk s rcd := by
  unfold hasConflict
  rw [h, isEmpty_false_of_ne hne]
  cases hasMatch nk s rcd <;> rfl

/-- On a conflicting row with mappable natural keys, the loader resolves
to the first stored match. -/
lemma rowStep_conflict_resolved (mp : List (String × String)) (nk : List String)
    (row : Row) (s : Sink) (id : Nat)
    (hnn : notNullViolated s (mkRecord mp row) = false)
    (huniq : s.uniqueCols = nk) (hne : nk ≠ [])
    (hmap : ∀ c ∈ nk, (headerFor mp c).isSome = true)
    (hcf : hasMatch nk s (mkRecord mp row) = true)
    (hid : firstMatch nk s (mkRecord mp row) = some id) :
    rowStep mp nk row s = (RowResult.resolvedExisting id, s, []) := by
  have hconf : hasConflict s (mkRecord mp row) = true := by
    rw [hasConflict_eq s nk _ huniq hne]
    exact hcf
  rw [rowStep_eq_of_uv mp nk row s (sinkInsert_of_conf s _ hnn hconf)]
  unfold uvRecover
  rw [isEmpty_false_of_ne hne]
  simp only [Bool.false_eq_true, if_false, nkClauses_eq mp row nk hmap,
    sinkSelect_nk, hid]

lemma ipdGo_cons_skip (mp : List (String × String)) (nk : List String) (row : Row)
    (rest : List Row) (s s2 : Sink) (w : List Warn)
    (h : rowStep mp nk row s = (RowResult.skipped, s2, w)) :
    (ipdGo mp nk (row :: rest) s).1 = (ipdGo mp nk rest s2).1 ∧
    (ipdGo mp nk (row :: rest) s).2.1 = (ipdGo mp nk rest s2).2.1 := by
  constructor <;> simp [ipdGo, h]

lemma ipdGo_cons_ins (mp : List (String × String)) (nk : List String) (row : Row)
    (rest : List Row) (s s2 : Sink) (w : List Warn) (id : Nat)
    (h : rowStep mp nk row s = (RowResult.inserted id, s2, w)) :
    (ipdGo mp nk (row :: rest) s).1 = id :: (ipdGo mp nk rest s2).1 ∧
    (ipdGo mp nk (row :: rest) s).2.1 = (ipdGo mp nk rest s2).2.1 := by
  constructor <;> simp [ipdGo, h]

lemma ipdGo_cons_res (mp : List (String × String)) (nk : List String) (row : Row)
    (rest : List Row) (s s2 : Sink) (w : List Warn) (id : Nat)
    (h : rowStep mp nk row s = (RowResult.resolvedExisting id, s2, w)) :
    (ipdGo mp nk (row :: rest) s).1 = id :: (ipdGo mp nk rest s2).1 ∧
    (ipdGo mp nk (row :: rest) s).2.1 = (ipdGo mp nk rest s2).2.1 := by
  constructor <;> simp [ipdGo, h]

lemma notNullViolated_congr (t s : Sink) (rcd : Row) (h : t.notNullCols = s.notNullCols) :
    notNullViolated t rcd = notNullViolated s rcd := by
  unfold notNullViolated
  rw [h]

/-- Re-running a table load against any sink `t` that preserves the first
matches of the original run's final sink replays each row's identifier
and leaves `t` untouched. -/
lemma ipd_rerun (mp : List (String × String)) (nk : List String)
    (hnk : nk ≠ []) (hmap : ∀ c ∈ nk, (headerFor mp c).isSome = true) :
    ∀ (data : List Row) (s t : Sink),
    s.uniqueCols = nk → t.uniqueCols = nk → t.notNullCols = s.notNullCols →
    (∀ rcd, hasMatch nk (ipdGo mp nk data s).2.1 rcd = true →
      hasMatch nk t rcd = true ∧
      firstMatch nk t rcd = firstMatch nk (ipdGo mp nk data s).2.1 rcd) →
    (ipdGo mp nk data t).1 = (ipdGo mp nk data s).1 ∧ (ipdGo mp nk data t).2.1 = t := by
  intro data
  induction data with
  | nil => intro s t hs ht hnn hstab; exact ⟨rfl, rfl⟩
  | cons row rest ih =>
    intro s t hs ht hnn hstab
    by_cases hnnv : notNullViolated s (mkRecord mp row) = true
    · have hnnt : notNullViolated t (mkRecord mp row) = true := by
        rw [notNullViolated_congr t s _ hnn]
        exact hnnv
      have h1 := rowStep_eq_of_other mp nk row s (sinkInsert_of_nn s _ hnnv)
      have h2 := rowStep_eq_of_other mp nk row t (sinkInsert_of_nn t _ hnnt)
      obtain ⟨hi1, hs1⟩ := ipdGo_cons_skip mp nk row rest s s [Warn.skipOtherIntegrity] h1
      obtain ⟨hi2, hs2⟩ := ipdGo_cons_skip mp nk row rest t t [Warn.skipOtherIntegrity] h2
      rw [hs1] at hstab
      obtain ⟨ha, hb⟩ := ih s t hs ht hnn hstab
      exact ⟨by rw [hi1, hi2, ha], by rw [hs2, hb]⟩
    · have hnnv2 := bool_eq_false_of_ne_true hnnv
      have hnnt : notNullViolated t (mkRecord mp row) = false := by
        rw [notNullViolated_congr t s _ hnn]
        exact hnnv2
      by_cases hcf : hasMatch nk s (mkRecord mp row) = true
      · obtain ⟨id, hid⟩ := firstMatch_isSome nk s _ hcf
        have h1 := rowStep_conflict_resolved mp nk row s id hnnv2 hs hnk hmap hcf hid
        obtain ⟨hi1, hs1⟩ := ipdGo_cons_res mp nk row rest s s [] id h1
        rw [hs1] at hstab
        obtain ⟨hm1, hf1⟩ := ipd_stable mp nk nk rest s _ hcf
        obtain ⟨hmt, hft⟩ := hstab _ hm1
        have hidt : firstMatch nk t (mkRecord mp row) = some id := by
          rw [hft, hf1, hid]
        have h2 := rowStep_conflict_resolved mp nk row t id hnnt ht hnk hmap hmt hidt
        obtain ⟨hi2, hs2⟩ := ipdGo_cons_res mp nk row rest t t [] id h2
        obtain ⟨ha, hb⟩ := ih s t hs ht hnn hstab
        exact ⟨by rw [hi1, hi2, ha], by rw [hs2, hb]⟩
      · have hcf2 := bool_eq_false_of_ne_true hcf
        have hconf : hasConflict s (mkRecord mp row) = false := by
          rw [hasConflict_eq s nk _ hs hnk]
          exact hcf2
        have hins := sinkInsert_of_free s _ hnnv2 hconf
        have h1 := rowStep_eq_of_ok mp nk row s _ s.nextId hins
        obtain ⟨hi1, hs1⟩ := ipdGo_cons_ins mp nk row rest s _ [] s.nextId h1
        rw [hs1] at hstab
        have hrows : (insertedSink s (mkRecord mp row)).rows
            = s.rows ++ [(s.nextId, mkRecord mp row)] := rfl
        have hm2 := hasMatch_inserted nk s _ (mkRecord mp row) s.nextId hrows
        have hfm2 := firstMatch_inserted nk s _ (mkRecord mp row) s.nextId hrows hcf2
        obtain ⟨hm1, hf1⟩ := ipd_stable mp nk nk rest _ _ hm2
        obtain ⟨hmt, hft⟩ := hstab _ hm1
        have hidt : firstMatch nk t (mkRecord mp row) = some s.nextId := by
          rw [hft, hf1, hfm2]
        have h2 := rowStep_conflict_resolved mp nk row t s.nextId hnnt ht hnk hmap hmt hidt
        obtain ⟨hi2, hs2⟩ := ipdGo_cons_res mp nk row rest t t [] s.nextId h2
        obtain ⟨ha, hb⟩ := ih (insertedSink s (mkRecord mp row)) t hs ht hnn hstab
        exact ⟨by rw [hi1, hi2, ha], by rw [hs2, hb]⟩

/-- Claim C2: with natural keys declared (and mappable, with the sink's
unique constraint on exactly those columns), re-running the same table
load against the sink the first run produced yields the same identifier
for every row and changes nothing: zero net new rows, no duplicates. -/
theorem claim_C2_idempotent_rerun (mp : List (String × String)) (nk : List String)
    (data : List Row) (s0 : Sink)
    (hnk : nk ≠ [])
    (hmap : ∀ c ∈ nk, (headerFor mp c).isSome = true)
    (huniq : s0.uniqueCols = nk) :
    (insert_processed_data mp nk data
        (insert_processed_data mp nk data s0).sink).inserted_ids
      = (insert_processed_data mp nk data s0).inserted_ids ∧
    (insert_processed_data mp nk data
        (insert_processed_data mp nk data s0).sink).sink
      = (insert_processed_data mp nk data s0).sink := by
  have hu1 : (ipdGo mp nk data s0).2.1.uniqueCols = nk := by
    rw [ipdGo_uniqueCols]
    exact huniq
  have hn1 : (ipdGo mp nk data s0).2.1.notNullCols = s0.notNullCols :=
    ipdGo_notNullCols mp nk data s0
  exact ipd_rerun mp nk hnk hmap data s0 (ipdGo mp nk data s0).2.1 huniq hu1 hn1
    (fun rcd hm => ⟨hm, rfl⟩)

/-- Witness for C2: loading the three Color rows twice; the second run
returns the same ids 10, 11, 12 and leaves the sink unchanged. -/
theorem claim_C2_witness :
    (insert_processed_data mpColor ["name"] dataColor sinkColor).inserted_ids
      = [10, 11, 12] ∧
    ((insert_processed_data mpColor ["name"] dataColor
        (insert_processed_data mpColor ["name"] dataColor sinkColor).sink).inserted_ids
      = (insert_processed_data mpColor ["name"] dataColor sinkColor).inserted_ids ∧
     (insert_processed_data mpColor ["name"] dataColor
        (insert_processed_data mpColor ["name"] dataColor sinkColor).sink).sink
      = (insert_processed_data mpColor ["name"] dataColor sinkColor).sink) :=
  ⟨by decide,
   claim_C2_idempotent_rerun mpColor ["name"] dataColor sinkColor
     (by decide) (by decide) rfl⟩

/-! ### Claim C9: Pass 2 of the reconciler -/

lemma reconcileRow_eq (cache : CacheMap) (fks : List DFkConf) (orow : ORow) :
    reconcileRow cache fks orow
      = List.foldl (reconcileStep cache orow)
          (orow.map (fun p => (p.1, DVal.ds p.2)), []) fks := rfl

lemma alookup_map_ds (orow : ORow) (c : String) :
    alookup c (orow.map (fun p => (p.1, DVal.ds p.2))) = (alookup c orow).map DVal.ds := by
  induction orow with
  | nil => rfl
  | cons p rest ih =>
    obtain ⟨k0, v0⟩ := p
    by_cases h : k0 = c
    · simp [alookup, h]
    · simp [alookup, h, ih]

lemma reconcileStep_none (cache : CacheMap) (orow : ORow) (acc : DRow × List Warn)
    (g : DFkConf) (h : alookup g.csv_fk_column orow = none) :
    reconcileStep cache orow acc g = acc := by
  simp [reconcileStep, h]

lemma reconcileStep_blank (cache : CacheMap) (orow : ORow) (acc : DRow × List Warn)
    (g : DFkConf) (h : alookup g.csv_fk_column orow = some "") :
    reconcileStep cache orow acc g = acc := by
  simp [reconcileStep, h]

lemma reconcileStep_hit (cache : CacheMap) (orow : ORow) (acc : DRow × List Warn)
    (g : DFkConf) (x : String) (id : Nat) (h : alookup g.csv_fk_column orow = some x)
    (hxe : x ≠ "") (hres : cacheResolve cache g x = some id) :
    reconcileStep cache orow acc g
      = (aset acc.1 g.csv_fk_column (DVal.dn id),
         acc.2 ++ (if g.placeholder_is_1_based_index && (pyInt x).isNone
                   then [Warn.invalidIndex] else [])) := by
  simp [reconcileStep, h, hxe, hres]

lemma reconcileStep_miss (cache : CacheMap) (orow : ORow) (acc : DRow × List Warn)
    (g : DFkConf) (x : String) (h : alookup g.csv_fk_column orow = some x)
    (hxe : x ≠ "") (hres : cacheResolve cache g x = none) :
    reconcileStep cache orow acc g
      = (acc.1, acc.2 ++ (if g.placeholder_is_1_based_index && (pyInt x).isNone
                          then [Warn.invalidIndex] else []) ++ [Warn.fkUnresolved]) := by
  simp [reconcileStep, h, hxe, hres]

lemma reconcileStep_other (cache : CacheMap) (orow : ORow) (acc : DRow × List Warn)
    (g : DFkConf) (c : String) (hc : c ≠ g.csv_fk_column) :
    alookup c (reconcileStep cache orow acc g).1 = alookup c acc.1 := by
  cases hx : alookup g.csv_fk_column orow with
  | none => rw [reconcileStep_none cache orow acc g hx]
  | some x =>
    by_cases hxe : x = ""
    · subst hxe
      rw [reconcileStep_blank cache orow acc g hx]
    · cases hres : cacheResolve cache g x with
      | some id =>
        rw [reconcileStep_hit cache orow acc g x id hx hxe hres]
        exact alookup_aset_ne acc.1 g.csv_fk_column c _ (Ne.symm hc)
      | none => rw [reconcileStep_miss cache orow acc g x hx hxe hres]

lemma reconcileStep_warns (cache : CacheMap) (orow : ORow) (acc : DRow × List Warn)
    (g : DFkConf) : ∃ w, (reconcileStep cache orow acc g).2 = acc.2 ++ w := by
  cases hx : alookup g.csv_fk_column orow with
  | none => exact ⟨[], by rw [reconcileStep_none cache orow acc g hx]; simp⟩
  | some x =>
    by_cases hxe : x = ""
    · subst hxe
      exact ⟨[], by rw [reconcileStep_blank cache orow acc g hx]; simp⟩
    · cases hres : cacheResolve cache g x with
      | some id =>
        exact ⟨_, by rw [reconcileStep_hit cache orow acc g x id hx hxe hres]⟩
      | none =>
        refine ⟨(if g.placeholder_is_1_based_index && (pyInt x).isNone
                 then [Warn.invalidIndex] else []) ++ [Warn.fkUnresolved], ?_⟩
        rw [reconcileStep_miss cache orow acc g x hx hxe hres]
        simp [List.append_assoc]

lemma warn_mem_foldl (cache : CacheMap) (orow : ORow) : ∀ (fks : List DFkConf)
    (acc : DRow × List Warn) (v : Warn), v ∈ acc.2 →
    v ∈ (List.foldl (reconcileStep cache orow) acc fks).2 := by
  intro fks
  induction fks with
  | nil => intro acc v h; exact h
  | cons g rest ih =>
    intro acc v h
    rw [List.foldl_cons]
    apply ih
    obtain ⟨w, hw⟩ := reconcileStep_warns cache orow acc g
    rw [hw]
    exact List.mem_append_left _ h

lemma reconcileFold_other (cache : CacheMap) (orow : ORow) : ∀ (fks : List DFkConf)
    (acc : DRow × List Warn) (c : String),
    c ∉ fks.map (fun f => f.csv_fk_column) →
    alookup c (List.foldl (reconcileStep cache orow) acc fks).1 = alookup c acc.1 := by
  intro fks
  induction fks with
  | nil => intro acc c h; rfl
  | cons g rest ih =>
    intro acc c h
    have h1 : c ≠ g.csv_fk_column := by
      intro he
      exact h (by simp [he])
    have h2 : c ∉ rest.map (fun f => f.csv_fk_column) := by
      intro he
      exact h (by simp [he])
    rw [List.foldl_cons, ih (reconcileStep cache orow acc g) c h2,
      reconcileStep_other cache orow acc g c h1]

lemma reconcileFold_fk (cache : CacheMap) (orow : ORow) : ∀ (fks : List DFkConf)
    (acc : DRow × List Warn) (fk : DFkConf), fk ∈ fks →
    (fks.map (fun f => f.csv_fk_column)).Nodup →
    ∀ x, alookup fk.csv_fk_column orow = some x → x ≠ "" →
    ((∀ id, cacheResolve cache fk x = some id →
        alookup fk.csv_fk_column (List.foldl (reconcileStep cache orow) acc fks).1
          = some (DVal.dn id)) ∧
     (cacheResolve cache fk x = none →
        alookup fk.csv_fk_column (List.foldl (reconcileStep cache orow) acc fks).1
          = alookup fk.csv_fk_column acc.1 ∧
        Warn.fkUnresolved ∈ (List.foldl (reconcileStep cache orow) acc fks).2)) := by
  intro fks
  induction fks with
  | nil => intro acc fk h; cases h
  | cons g rest ih =>
    intro acc fk hmem hnd x hx hxe
    rw [List.map_cons] at hnd
    have hnds := List.nodup_cons.mp hnd
    rcases List.mem_cons.mp hmem with heq | hmem2
    · subst heq
      have hnotin : fk.csv_fk_column ∉ rest.map (fun f => f.csv_fk_column) := hnds.1
      constructor
      · intro id hres
        rw [List.foldl_cons,
          reconcileFold_other cache orow rest _ fk.csv_fk_column hnotin,
          reconcileStep_hit cache orow acc fk x id hx hxe hres]
        exact alookup_aset_self acc.1 fk.csv_fk_column (DVal.dn id)
      · intro hres
        rw [List.foldl_cons]
        constructor
        · rw [reconcileFold_other cache orow rest _ fk.csv_fk_column hnotin,
            reconcileStep_miss cache orow acc fk x hx hxe hres]
        · apply warn_mem_foldl
          rw [reconcileStep_miss cache orow acc fk x hx hxe hres]
          simp
    · have hgne : g.csv_fk_column ≠ fk.csv_fk_column := by
        intro h
        apply hnds.1
        rw [h]
        exact List.mem_map.mpr ⟨fk, hmem2, rfl⟩
      rw [List.foldl_cons]
      have hpres := reconcileStep_other cache orow acc g fk.csv_fk_column (Ne.symm hgne)
      have hrec := ih (reconcileStep cache orow acc g) fk hmem2 hnds.2 x hx hxe
      constructor
      · intro id hres
        exact hrec.1 id hres
      · intro hres
        obtain ⟨ha, hb⟩ := hrec.2 hres
        exact ⟨ha.trans hpres, hb⟩

lemma reconcileFold_blank (cache : CacheMap) (orow : ORow) : ∀ (fks : List DFkConf)
    (acc : DRow × List Warn) (fk : DFkConf), fk ∈ fks →
    (fks.map (fun f => f.csv_fk_column)).Nodup →
    alookup fk.csv_fk_column orow = some "" →
    alookup fk.csv_fk_column (List.foldl (reconcileStep cache orow) acc fks).1
      = alookup fk.csv_fk_column acc.1 := by
  intro fks
  induction fks with
  | nil => intro acc fk h; cases h
  | cons g rest ih =>
    intro acc fk hmem hnd hx
    rw [List.map_cons] at hnd
    have hnds := List.nodup_cons.mp hnd
    rcases List.mem_cons.mp hmem with heq | hmem2
    · subst heq
      rw [List.foldl_cons,
        reconcileFold_other cache orow rest _ fk.csv_fk_column hnds.1,
        reconcileStep_blank cache orow acc fk hx]
    · have hgne : g.csv_fk_column ≠ fk.csv_fk_column := by
        intro h
        apply hnds.1
        rw [h]
        exact List.mem_map.mpr ⟨fk, hmem2, rfl⟩
      rw [List.foldl_cons, ih (reconcileStep cache orow acc g) fk hmem2 hnds.2 hx,
        reconcileStep_other cache orow acc g fk.csv_fk_column (Ne.symm hgne)]

/-- Claim C9: in every row Pass 2 emits, a foreign-key column is either
rewritten to the identifier found in the Pass-1 cache (by parent ordinal
or natural key, per its mode), or — when the cache cannot resolve the
placeholder — keeps its original placeholder string unchanged and a
warning is recorded; a blank placeholder is kept blank; every non-FK
column is carried over verbatim.  No column is ever replaced by null:
the emitted cell is always the original string or a found identifier. -/
theorem claim_C9_pass2_rewrite (cache : CacheMap) (fks : List DFkConf) (orow : ORow)
    (hnd : (fks.map (fun f => f.csv_fk_column)).Nodup) :
    (∀ fk, fk ∈ fks → ∀ x, alookup fk.csv_fk_column orow = some x → x ≠ "" →
      (∀ id, cacheResolve cache fk x = some id →
        alookup fk.csv_fk_column (reconcileRow cache fks orow).1 = some (DVal.dn id)) ∧
      (cacheResolve cache fk x = none →
        alookup fk.csv_fk_column (reconcileRow cache fks orow).1 = some (DVal.ds x) ∧
        Warn.fkUnresolved ∈ (reconcileRow cache fks orow).2)) ∧
    (∀ c, c ∉ fks.map (fun f => f.csv_fk_column) →
      alookup c (reconcileRow cache fks orow).1 = (alookup c orow).map DVal.ds) ∧
    (∀ fk, fk ∈ fks → alookup fk.csv_fk_column orow = some "" →
      alookup fk.csv_fk_column (reconcileRow cache fks orow).1 = some (DVal.ds "")) := by
  rw [reconcileRow_eq]
  refine ⟨?_, ?_, ?_⟩
  · intro fk hmem x hx hxe
    have h := reconcileFold_fk cache orow fks
      (orow.map (fun p => (p.1, DVal.ds p.2)), []) fk hmem hnd x hx hxe
    refine ⟨h.1, ?_⟩
    intro hres
    obtain ⟨ha, hb⟩ := h.2 hres
    refine ⟨?_, hb⟩
    rw [ha]
    show alookup fk.csv_fk_column (orow.map (fun p => (p.1, DVal.ds p.2))) = _
    rw [alookup_map_ds, hx]
    rfl
  · intro c hc
    rw [reconcileFold_other cache orow fks _ c hc]
    show alookup c (orow.map (fun p => (p.1, DVal.ds p.2))) = _
    rw [alookup_map_ds]
  · intro fk hmem hx
    rw [reconcileFold_blank cache orow fks _ fk hmem hnd hx]
    show alookup fk.csv_fk_column (orow.map (fun p => (p.1, DVal.ds p.2))) = _
    rw [alookup_map_ds, hx]
    rfl

/-- Witness for C9: placeholder "1" of column c1 is rewritten to the
cached id 5, the unparsable placeholder "abc" of column c2 keeps its
original text with a warning recorded, and the payload column z is
carried over verbatim. -/
theorem claim_C9_witness :
    alookup "c1" (reconcileRow cacheW fksW orowW).1 = some (DVal.dn 5) ∧
    (alookup "c2" (reconcileRow cacheW fksW orowW).1 = some (DVal.ds "abc") ∧
      Warn.fkUnresolved ∈ (reconcileRow cacheW fksW orowW).2) ∧
    alookup "z" (reconcileRow cacheW fksW orowW).1 = (alookup "z" orowW).map DVal.ds :=
  ⟨((claim_C9_pass2_rewrite cacheW fksW orowW (by decide)).1 ⟨"c1", "P", true⟩
      (by decide) "1" (by decide) (by decide)).1 5 (by decide),
   ((claim_C9_pass2_rewrite cacheW fksW orowW (by decide)).1 ⟨"c2", "P", true⟩
      (by decide) "abc" (by decide) (by decide)).2 (by decide),
   (claim_C9_pass2_rewrite cacheW fksW orowW (by decide)).2.1 "z" (by decide)⟩

end CsvLoader
